import Mathlib

/-!
# Verification of the devserver staging / update-ping core

A shallow embedding of `src/devserver.py` (a CherryPy image/update devserver)
together with the parts of its collaborators (`downloader.py`, `autoupdate.py`)
that the spec describes but that are not shipped in `src/`.

Embedded here:
* the per-key background download table `DevServerRoot._downloader_dict`
  (`download` / `wait_for_status` handlers),
* the startup cache maintenance in `__main__` (`ls -tr | head --lines=-N |
  xargs rm -rf` eviction and the `--clear_cache` full wipe),
* the `ApiRoot.setnextupdate` handler (label strip and the 400 error path),
* the `symbolicate_dump` handler (external `minidump_stackwalk` call).

Python dicts become association lists, handler bodies become pure state
transformers, and the background thread of a `Downloader` becomes an explicit
separate transition (`finishTask`).
-/

namespace Devserver

/-! ## Download coordination (`DevServerRoot.download` / `wait_for_status`) -/

/-- State of a staging task. `Running` while the background transfer is in
flight; terminal states record the outcome. -/
inductive DlStatus where
  | Running : DlStatus
  | Succeeded : DlStatus
  | Failed : String → DlStatus
deriving DecidableEq

/-- One `downloader.Downloader` instance: an identity plus its current state. -/
structure Task where
  tid : Nat
  state : DlStatus
deriving DecidableEq

/-- State of `DevServerRoot` relevant to staging: every downloader instance
ever constructed (`tasks`, keyed by `tid`), and `_downloader_dict`, a Python
dict mapping an archive URL to a downloader instance or `None` (`table`).
`nextId` is the fresh-identity supply for new instances. -/
structure CoordState where
  tasks : List Task
  table : List (String × Option Nat)
  nextId : Nat
deriving DecidableEq

/-- `d[k] = v` on a Python dict: overwrite the entry if the key is present,
append it otherwise. -/
def setEntry (tbl : List (String × Option Nat)) (k : String) (v : Option Nat) :
    List (String × Option Nat) :=
  match tbl with
  | [] => [(k, v)]
  | (k', v') :: rest =>
    if k' = k then (k, v) :: rest else (k', v') :: setEntry rest k v

/-- Raw lookup distinguishing an absent key (`none`) from a key mapped to
`None` (`some none`). -/
def findEntry (tbl : List (String × Option Nat)) (k : String) :
    Option (Option Nat) :=
  match tbl with
  | [] => none
  | (k', v') :: rest => if k' = k then some v' else findEntry rest k

/-- `d.get(k)` followed by the `if downloader_instance:` truthiness test:
yields a task id only when the key is present and mapped to an instance.
An absent key and a key mapped to `None` are indistinguishable here. -/
def dictGet (tbl : List (String × Option Nat)) (k : String) : Option Nat :=
  match findEntry tbl k with
  | some v => v
  | none => none

/-- `k in d` on the Python dict: the key is present, whatever its value. -/
def hasKey (tbl : List (String × Option Nat)) (k : String) : Bool :=
  (findEntry tbl k).isSome

/-- Current state of the downloader instance with identity `tid` (defaulting
to `Running` when no such instance exists; never hit on the states used). -/
def taskStateD (st : CoordState) (tid : Nat) : DlStatus :=
  match st.tasks.find? (fun t => t.tid == tid) with
  | some t => t.state
  | none => DlStatus.Running

/-- Modelled from the spec: the status string a poller receives from
`GetStatusOfBackgroundDownloads` (in `downloader.py`, not in `src/`) — the
boundary contract is `status(key) -> {Pending|Success|Failed|NotFound}`, with
failures carrying the captured message. -/
def statusString : DlStatus → String
  | DlStatus.Running => "Pending"
  | DlStatus.Succeeded => "Success"
  | DlStatus.Failed msg => "Failed: " ++ msg

/-- Eventual outcome of the background blob-store fetch. -/
inductive FetchOutcome where
  | success : FetchOutcome
  | failure : String → FetchOutcome
deriving DecidableEq

/-- `DevServerRoot.download(**kwargs)`. A fresh `Downloader` instance is
constructed, the archive URL checked, the instance stored in
`_downloader_dict[archive_url]`, and `Download(archive_url, background=True)`
launched. `launchErr = some e` models `Download` raising `e` synchronously
(before the background work detaches): the handler then sets the entry to
`None` and re-raises. On success the handler returns immediately with the
launch result; the transfer itself continues in `finishTask`. -/
def download (st : CoordState) (archive_url : Option String)
    (launchErr : Option String) : CoordState × Except String Nat :=
  let t : Task := { tid := st.nextId, state := DlStatus.Running }
  let st1 : CoordState :=
    { st with tasks := st.tasks ++ [t], nextId := st.nextId + 1 }
  match archive_url with
  | none => (st1, Except.error "Didn't specify the archive_url in request")
  | some url =>
    let st2 := { st1 with table := setEntry st1.table url (some t.tid) }
    match launchErr with
    | none => (st2, Except.ok t.tid)
    | some e =>
      ({ st2 with table := setEntry st2.table url none }, Except.error e)

/-- Terminal state corresponding to a fetch outcome. -/
def outcomeStatus : FetchOutcome → DlStatus
  | FetchOutcome.success => DlStatus.Succeeded
  | FetchOutcome.failure msg => DlStatus.Failed msg

/-- Transition one task to `s'` if it is the Running task with identity
`tid`, leave it alone otherwise. -/
def finishOne (tid : Nat) (s' : DlStatus) (t : Task) : Task :=
  if t.tid = tid ∧ t.state = DlStatus.Running then { t with state := s' } else t

/-- Modelled from the spec: completion of the background staging work launched
by `Downloader.Download(..., background=True)` (in `downloader.py`, not in
`src/`). The Running task transitions to its terminal state; a blob-store
failure is captured as terminal `Failed` with its message, with no retry. -/
def finishTask (st : CoordState) (tid : Nat) (out : FetchOutcome) : CoordState :=
  { st with tasks := st.tasks.map (finishOne tid (outcomeStatus out)) }

/-- `DevServerRoot.wait_for_status(**kwargs)`. If `_downloader_dict.get(url)`
is a live instance, its (terminal, the poll blocks) status is returned and the
entry set to `None`; otherwise the on-disk cache is consulted via
`downloader.Downloader.BuildStaged` (abstracted as the predicate `staged`,
its code not being in `src/`): `'Success'` if staged, else a
`'No download for the given archive_url found.'` error. -/
def wait_for_status (st : CoordState) (archive_url : Option String)
    (staged : String → Bool) : CoordState × Except String String :=
  match archive_url with
  | none => (st, Except.error "Didn't specify the archive_url in request")
  | some url =>
    match dictGet st.table url with
    | some tid =>
      ({ st with table := setEntry st.table url none },
       Except.ok (statusString (taskStateD st tid)))
    | none =>
      if staged url then (st, Except.ok "Success")
      else (st, Except.error "No download for the given archive_url found.")

/-- A task id is tracked-and-Running for a key. -/
def isTrackedRunning (st : CoordState) (k : String) (tid : Nat) : Prop :=
  dictGet st.table k = some tid ∧ taskStateD st tid = DlStatus.Running

instance (st : CoordState) (k : String) (tid : Nat) :
    Decidable (isTrackedRunning st k tid) := by
  unfold isTrackedRunning; infer_instance

/-! ## Startup cache maintenance (`__main__`) -/

/-- An entry of the cache directory: its name and modification time. -/
structure CEntry where
  name : String
  mtime : Nat
deriving DecidableEq

/-- The ordering `ls -t` keys on, reversed by `-r`: modification time,
oldest first. -/
def mtimeLe (a b : CEntry) : Prop := a.mtime ≤ b.mtime

instance : DecidableRel mtimeLe := fun a b =>
  inferInstanceAs (Decidable (a.mtime ≤ b.mtime))

instance : IsTotal CEntry mtimeLe := ⟨fun a b => Nat.le_total a.mtime b.mtime⟩

instance : IsTrans CEntry mtimeLe := ⟨fun _ _ _ => Nat.le_trans⟩

/-- `ls -tr` inside the cache directory: its entries sorted by modification
time, least recently modified first. -/
def lsTr (entries : List CEntry) : List CEntry :=
  List.insertionSort mtimeLe entries

/-- `cd cache_dir; ls -tr | head --lines=-limit | xargs rm -rf`
(the `__main__` eviction pass, with `limit = CACHED_ENTRIES`):
`head --lines=-limit` keeps all listed lines but the last `limit`, so the
pipeline deletes, oldest first, every entry except the `limit` most recently
modified. Returns `(deleted, kept)` in listing order. -/
def evictExcess (entries : List CEntry) (limit : Nat) :
    List CEntry × List CEntry :=
  ((lsTr entries).take ((lsTr entries).length - limit),
   (lsTr entries).drop ((lsTr entries).length - limit))

/-- `CACHED_ENTRIES = 12` -/
def CACHED_ENTRIES : Nat := 12

/-- The two cache-mutating startup actions. -/
inductive CacheAction where
  | clearAll : CacheAction
  | evictOld : CacheAction
deriving DecidableEq

/-- Outcome of the startup cache block: which actions ran, and whether the
process exited (with which status) before serving. -/
structure StartupResult where
  actions : List CacheAction
  exitCode : Option Nat
deriving DecidableEq

/-- The `__main__` cache setup block. If the cache directory exists, exactly
one of the full wipe (`--clear_cache`, `rm -rf cache_dir/*`) or the excess
eviction runs; if its shell command fails, the failure is logged and the
process exits with status 1 (`sys.exit(1)`). If the directory does not exist
it is created (`os.makedirs`) and neither command runs. `cmdOk` models
`os.system(cmd) == 0` for whichever command runs. -/
def startupCachePass (cacheDirExists clear_cache cmdOk : Bool) : StartupResult :=
  if cacheDirExists then
    if clear_cache then
      { actions := [CacheAction.clearAll],
        exitCode := if cmdOk then none else some 1 }
    else
      { actions := [CacheAction.evictOld],
        exitCode := if cmdOk then none else some 1 }
  else
    { actions := [], exitCode := none }

/-! ## Update-ping registry (`ApiRoot.setnextupdate`) -/

/-- Per-host record of the ping registry; only the field the claims touch
(the forced update label, `OverridePending` when set). -/
structure HostRecord where
  forcedLabel : Option String
deriving DecidableEq

/-- The registry: a Python dict from client IP to its record. -/
def Registry : Type := List (String × HostRecord)

instance : DecidableEq Registry :=
  inferInstanceAs (DecidableEq (List (String × HostRecord)))

/-- Store `r` as the record of `ip`, creating it if absent. -/
def regSet (reg : Registry) (ip : String) (r : HostRecord) : Registry :=
  match reg with
  | [] => [(ip, r)]
  | (ip', r') :: rest =>
    if ip' = ip then (ip, r) :: rest else (ip', r') :: regSet rest ip r

/-- Look up the record of `ip`. -/
def regFind (reg : Registry) (ip : String) : Option HostRecord :=
  match reg with
  | [] => none
  | (ip', r') :: rest => if ip' = ip then some r' else regFind rest ip

/-- The whitespace set of Python 2 `str.strip()`. -/
def pyIsSpace (c : Char) : Bool :=
  c = ' ' || c = '\t' || c = '\n' || c = '\x0b' || c = '\x0c' || c = '\r'

/-- Python `label.strip()`: drop leading and trailing whitespace. -/
def pyStrip (s : String) : String :=
  ⟨((s.toList.dropWhile pyIsSpace).reverse.dropWhile pyIsSpace).reverse⟩

/-- Modelled from the spec: `Autoupdate.HandleSetUpdatePing` (in
`autoupdate.py`, not in `src/`) — `SetOverride` creates the host record if
absent and sets the forced label, moving the host to `OverridePending`. -/
def HandleSetUpdatePing (reg : Registry) (ip label : String) :
    Registry × Except String String :=
  (regSet reg ip { forcedLabel := some label }, Except.ok "ok")

/-- `ApiRoot.setnextupdate(ip)` with request body `label`: if the body is
non-empty it is stripped; if still non-empty the registry is invoked with the
stripped label; every other path raises `HTTPError(400, 'No label provided.')`
without touching the registry. -/
def setnextupdate (reg : Registry) (ip label : String) :
    Registry × Except String String :=
  if label ≠ "" then
    let stripped := pyStrip label
    if stripped ≠ "" then HandleSetUpdatePing reg ip stripped
    else (reg, Except.error "No label provided.")
  else (reg, Except.error "No label provided.")

/-! ## Minidump symbolication (`DevServerRoot.symbolicate_dump`) -/

/-- `DevServerRoot.symbolicate_dump`, after the dump is written to a temp
file: `minidump_stackwalk` is run and its stdout, stderr and return code
captured; a non-zero return code raises `DevServerError`, otherwise the
captured stdout is returned. -/
def symbolicate_dump (stdout_text stderr_text : String) (returncode : Int) :
    Except String String :=
  if returncode ≠ 0 then
    Except.error ("Can't generate stack trace: " ++ stderr_text ++
      " (rc=" ++ toString returncode ++ ")")
  else Except.ok stdout_text

/-! ## Helper lemmas -/

theorem findEntry_setEntry_self (tbl : List (String × Option Nat))
    (k : String) (v : Option Nat) : findEntry (setEntry tbl k v) k = some v := by
  induction tbl with
  | nil => simp [setEntry, findEntry]
  | cons p rest ih =>
    obtain ⟨k', v'⟩ := p
    by_cases h : k' = k <;> simp [setEntry, findEntry, h, ih]

theorem dictGet_setEntry_self (tbl : List (String × Option Nat))
    (k : String) (v : Option Nat) : dictGet (setEntry tbl k v) k = v := by
  simp [dictGet, findEntry_setEntry_self]

theorem hasKey_setEntry_of_hasKey (tbl : List (String × Option Nat))
    (k k' : String) (v : Option Nat) (h : hasKey tbl k' = true) :
    hasKey (setEntry tbl k v) k' = true := by
  induction tbl with
  | nil => simp [hasKey, findEntry] at h
  | cons p rest ih =>
    obtain ⟨k₀, v₀⟩ := p
    by_cases h0 : k₀ = k
    · subst h0
      by_cases h1 : k₀ = k'
      · simp [hasKey, setEntry, findEntry, h1]
      · simp [hasKey, setEntry, findEntry, h1] at h ⊢
        exact h
    · by_cases h1 : k₀ = k'
      · subst h1
        simp [hasKey, setEntry, findEntry, h0]
      · simp [hasKey, setEntry, findEntry, h0, h1] at h ⊢
        exact ih h

theorem finishOne_tid (tid : Nat) (s' : DlStatus) (t : Task) :
    (finishOne tid s' t).tid = t.tid := by
  unfold finishOne
  split <;> rfl

/-! ## Claim theorems -/

/-- C1: for every key, at any instant at most one Running StagingTask is
tracked for that key — two `download` calls on the same key before completion
never leave two concurrently tracked Running tasks for that key: every task id
tracked-and-Running for the key after the second call is the same one. -/
theorem download_twice_at_most_one_tracked_running
    (st : CoordState) (k : String) (t1 t2 : Nat)
    (h1 : isTrackedRunning
      (download (download st (some k) none).1 (some k) none).1 k t1)
    (h2 : isTrackedRunning
      (download (download st (some k) none).1 (some k) none).1 k t2) :
    t1 = t2 := by
  have hd : dictGet
      (download (download st (some k) none).1 (some k) none).1.table k
      = some (st.nextId + 1) := by
    simp [download, dictGet_setEntry_self]
  obtain ⟨h1d, -⟩ := h1
  obtain ⟨h2d, -⟩ := h2
  rw [hd] at h1d h2d
  simp only [Option.some.injEq] at h1d h2d
  omega

/-- C1 witness. -/
theorem download_twice_at_most_one_tracked_running_witness :
    isTrackedRunning
      (download (download ⟨[], [], 0⟩ (some "gs://b/a") none).1
        (some "gs://b/a") none).1 "gs://b/a" 1 ∧ (1 : Nat) = 1 :=
  ⟨by decide,
   download_twice_at_most_one_tracked_running ⟨[], [], 0⟩ "gs://b/a" 1 1
     (by decide) (by decide)⟩

/-- C2: a `download` call on a key that already has a tracked task replaces
the tracked entry with a new task without canceling or awaiting the prior one
(every previously constructed task survives with its state unchanged), and
still launches the new staging work (the new Running task exists and the call
returns its handle). -/
theorem download_replaces_without_cancel
    (st : CoordState) (k : String) (oldTid : Nat)
    (hTracked : dictGet st.table k = some oldTid)
    (hFresh : oldTid < st.nextId) :
    dictGet (download st (some k) none).1.table k = some st.nextId ∧
    oldTid ≠ st.nextId ∧
    (∀ t ∈ st.tasks, t ∈ (download st (some k) none).1.tasks) ∧
    (⟨st.nextId, DlStatus.Running⟩ : Task) ∈ (download st (some k) none).1.tasks ∧
    (download st (some k) none).2 = Except.ok st.nextId := by
  refine ⟨?_, ?_, ?_, ?_, ?_⟩
  · simp [download, dictGet_setEntry_self]
  · omega
  · intro t ht
    simp only [download]
    exact List.mem_append_left _ ht
  · simp [download]
  · simp [download]

/-- C2 witness. -/
theorem download_replaces_without_cancel_witness :
    dictGet (download ⟨[⟨0, DlStatus.Running⟩], [("k", some 0)], 1⟩
        (some "k") none).1.table "k" = some 1 ∧
    (0 : Nat) ≠ 1 ∧
    (∀ t ∈ ([⟨0, DlStatus.Running⟩] : List Task),
      t ∈ (download ⟨[⟨0, DlStatus.Running⟩], [("k", some 0)], 1⟩
        (some "k") none).1.tasks) ∧
    (⟨1, DlStatus.Running⟩ : Task) ∈
      (download ⟨[⟨0, DlStatus.Running⟩], [("k", some 0)], 1⟩
        (some "k") none).1.tasks ∧
    (download ⟨[⟨0, DlStatus.Running⟩], [("k", some 0)], 1⟩
      (some "k") none).2 = Except.ok 1 :=
  download_replaces_without_cancel ⟨[⟨0, DlStatus.Running⟩], [("k", some 0)], 1⟩
    "k" 0 (by decide) (by decide)

/-- C3: a `wait_for_status` poll on a key with no tracked task consults the
on-disk cache: it returns `'Success'` when the artifact is staged under the
cache root and otherwise a `'No download for the given archive_url found.'`
error, with no other outcome and no state change. -/
theorem wait_untracked_cache_fallback (st : CoordState) (k : String)
    (staged : String → Bool) (hUntracked : dictGet st.table k = none) :
    wait_for_status st (some k) staged =
      if staged k then (st, Except.ok "Success")
      else (st, Except.error "No download for the given archive_url found.") := by
  simp only [wait_for_status, hUntracked]

/-- C3 witness. -/
theorem wait_untracked_cache_fallback_witness :
    wait_for_status ⟨[], [], 0⟩ (some "k") (fun _ => false) =
      if (fun _ => false) "k" then ((⟨[], [], 0⟩ : CoordState), Except.ok "Success")
      else (⟨[], [], 0⟩, Except.error "No download for the given archive_url found.") :=
  wait_untracked_cache_fallback ⟨[], [], 0⟩ "k" (fun _ => false) (by decide)

/-- C4: `wait_for_status` is single-consumer — the first poll that observes a
tracked task's terminal status returns it and consumes the in-memory record
(the dict view of the key becomes `None`), and every subsequent poll for the
key falls back to the on-disk cache check (`'Success'` when materialized,
`NotFound` error otherwise) rather than reading the consumed record. -/
theorem poll_single_consumer (st : CoordState) (k : String) (tid : Nat)
    (staged staged2 : String → Bool)
    (hTracked : dictGet st.table k = some tid)
    (hTerm : taskStateD st tid ≠ DlStatus.Running) :
    (wait_for_status st (some k) staged).2 =
      Except.ok (statusString (taskStateD st tid)) ∧
    dictGet (wait_for_status st (some k) staged).1.table k = none ∧
    wait_for_status (wait_for_status st (some k) staged).1 (some k) staged2 =
      ((wait_for_status st (some k) staged).1,
        if staged2 k then Except.ok "Success"
        else Except.error "No download for the given archive_url found.") := by
  have h1 : wait_for_status st (some k) staged =
      ({ st with table := setEntry st.table k none },
       Except.ok (statusString (taskStateD st tid))) := by
    simp [wait_for_status, hTracked]
  refine ⟨by rw [h1], ?_, ?_⟩
  · rw [h1]
    exact dictGet_setEntry_self _ _ _
  · rw [h1]
    simp only [wait_for_status, dictGet_setEntry_self]
    split <;> simp_all

/-- C4 witness. -/
theorem poll_single_consumer_witness :
    (wait_for_status ⟨[⟨5, DlStatus.Succeeded⟩], [("k", some 5)], 6⟩
        (some "k") (fun _ => true)).2 =
      Except.ok (statusString
        (taskStateD ⟨[⟨5, DlStatus.Succeeded⟩], [("k", some 5)], 6⟩ 5)) ∧
    dictGet (wait_for_status ⟨[⟨5, DlStatus.Succeeded⟩], [("k", some 5)], 6⟩
        (some "k") (fun _ => true)).1.table "k" = none ∧
    wait_for_status (wait_for_status ⟨[⟨5, DlStatus.Succeeded⟩],
        [("k", some 5)], 6⟩ (some "k") (fun _ => true)).1 (some "k")
        (fun _ => true) =
      ((wait_for_status ⟨[⟨5, DlStatus.Succeeded⟩], [("k", some 5)], 6⟩
          (some "k") (fun _ => true)).1,
        if (fun _ => true) "k" then Except.ok "Success"
        else Except.error "No download for the given archive_url found.") :=
  poll_single_consumer ⟨[⟨5, DlStatus.Succeeded⟩], [("k", some 5)], 6⟩ "k" 5
    (fun _ => true) (fun _ => true) (by decide) (by decide)

/-- C5: on a cache root whose entries have pairwise-distinct modification
times, the startup eviction pass with limit `CACHED_ENTRIES = 12` deletes the
least-recently-modified entries first (the deleted list is ordered by
ascending mtime, and every deleted entry is strictly older than every kept
entry), leaves exactly the 12 most-recently-modified entries when there are
more than 12 (nothing is created or lost: deleted ++ kept is a permutation of
the directory), and deletes nothing when there are 12 or fewer. -/
theorem evictExcess_keeps_most_recent (entries : List CEntry)
    (hDistinct : (entries.map CEntry.mtime).Nodup) :
    ((evictExcess entries CACHED_ENTRIES).1 ++
      (evictExcess entries CACHED_ENTRIES).2).Perm entries ∧
    List.Pairwise mtimeLe (evictExcess entries CACHED_ENTRIES).1 ∧
    (∀ d ∈ (evictExcess entries CACHED_ENTRIES).1,
      ∀ e ∈ (evictExcess entries CACHED_ENTRIES).2, d.mtime < e.mtime) ∧
    (CACHED_ENTRIES < entries.length →
      (evictExcess entries CACHED_ENTRIES).2.length = CACHED_ENTRIES) ∧
    (entries.length ≤ CACHED_ENTRIES →
      (evictExcess entries CACHED_ENTRIES).1 = []) := by
  have hsort : List.Sorted mtimeLe (lsTr entries) :=
    List.sorted_insertionSort mtimeLe entries
  have hperm : (lsTr entries).Perm entries :=
    List.perm_insertionSort mtimeLe entries
  have hlen : (lsTr entries).length = entries.length := hperm.length_eq
  have hsplit : (lsTr entries).take ((lsTr entries).length - CACHED_ENTRIES) ++
      (lsTr entries).drop ((lsTr entries).length - CACHED_ENTRIES) =
      lsTr entries :=
    List.take_append_drop _ _
  have hpw : List.Pairwise mtimeLe
      ((lsTr entries).take ((lsTr entries).length - CACHED_ENTRIES) ++
       (lsTr entries).drop ((lsTr entries).length - CACHED_ENTRIES)) := by
    rw [hsplit]; exact hsort
  rw [List.pairwise_append] at hpw
  obtain ⟨pwTake, -, hcross⟩ := hpw
  have hnodupL : ((lsTr entries).map CEntry.mtime).Nodup :=
    ((hperm.map CEntry.mtime).nodup_iff).mpr hDistinct
  have hnodupSplit :
      (((lsTr entries).take ((lsTr entries).length - CACHED_ENTRIES)).map
          CEntry.mtime ++
        ((lsTr entries).drop ((lsTr entries).length - CACHED_ENTRIES)).map
          CEntry.mtime).Nodup := by
    rw [← List.map_append, hsplit]; exact hnodupL
  rw [List.nodup_append] at hnodupSplit
  obtain ⟨-, -, hdisj⟩ := hnodupSplit
  refine ⟨?_, ?_, ?_, ?_, ?_⟩
  · show ((lsTr entries).take _ ++ (lsTr entries).drop _).Perm entries
    rw [hsplit]; exact hperm
  · exact pwTake
  · intro d hd e he
    have hle : d.mtime ≤ e.mtime := hcross d hd e he
    have hne : d.mtime ≠ e.mtime := fun heq =>
      hdisj (List.mem_map_of_mem _ hd) (heq ▸ List.mem_map_of_mem _ he)
    omega
  · intro hgt
    show ((lsTr entries).drop _).length = CACHED_ENTRIES
    rw [List.length_drop, hlen]
    omega
  · intro hle
    show (lsTr entries).take ((lsTr entries).length - CACHED_ENTRIES) = []
    have : (lsTr entries).length - CACHED_ENTRIES = 0 := by omega
    rw [this, List.take_zero]

/-- C5 witness: thirteen entries with distinct mtimes. -/
theorem evictExcess_keeps_most_recent_witness :
    (((List.range 13).map (fun i => (⟨toString i, i⟩ : CEntry))).map
        CEntry.mtime).Nodup ∧
    (evictExcess ((List.range 13).map (fun i => (⟨toString i, i⟩ : CEntry)))
        CACHED_ENTRIES).2.length = CACHED_ENTRIES :=
  ⟨by decide,
   (evictExcess_keeps_most_recent
      ((List.range 13).map (fun i => (⟨toString i, i⟩ : CEntry)))
      (by decide)).2.2.2.1 (by decide)⟩

/-- C6: in the startup cache block, a failing shell deletion (for either the
`--clear_cache` full wipe or the excess eviction) makes startup fatal — the
process exits with status 1, a nonzero code, instead of continuing to serve;
in any single run at most one of the full wipe and the eviction executes and
never both; and when the cache directory does not yet exist neither runs and
startup continues. -/
theorem startup_cache_pass_fatal_and_exclusive
    (dirExists clear_cache cmdOk : Bool) :
    (dirExists = true → cmdOk = false →
      (startupCachePass dirExists clear_cache cmdOk).exitCode = some 1) ∧
    (startupCachePass dirExists clear_cache cmdOk).exitCode ≠ some 0 ∧
    ¬(CacheAction.clearAll ∈
        (startupCachePass dirExists clear_cache cmdOk).actions ∧
      CacheAction.evictOld ∈
        (startupCachePass dirExists clear_cache cmdOk).actions) ∧
    (startupCachePass dirExists clear_cache cmdOk).actions.length ≤ 1 ∧
    (dirExists = false →
      (startupCachePass dirExists clear_cache cmdOk).actions = [] ∧
      (startupCachePass dirExists clear_cache cmdOk).exitCode = none) := by
  cases dirExists <;> cases clear_cache <;> cases cmdOk <;> decide

/-- C6 witness: eviction-command failure with an existing cache directory. -/
theorem startup_cache_pass_fatal_and_exclusive_witness :
    (startupCachePass true false false).exitCode = some 1 :=
  (startup_cache_pass_fatal_and_exclusive true false false).1 rfl rfl

/-- C7: `setnextupdate` strips surrounding whitespace from the request-body
label before storing it; if the label is empty or whitespace-only (its strip
is empty) the call fails with the 400 `'No label provided.'` error without
invoking the registry, leaving any prior pending override for that ip
unchanged; otherwise the stripped label is stored for the ip. -/
theorem setnextupdate_strips_or_rejects (reg : Registry) (ip label : String) :
    (pyStrip label = "" →
      setnextupdate reg ip label = (reg, Except.error "No label provided.")) ∧
    (pyStrip label ≠ "" →
      setnextupdate reg ip label =
        (regSet reg ip { forcedLabel := some (pyStrip label) },
         Except.ok "ok")) := by
  by_cases hl : label = ""
  · subst hl
    refine ⟨fun _ => by simp [setnextupdate], fun hne => absurd rfl hne⟩
  · constructor
    · intro hs
      simp [setnextupdate, hl, hs]
    · intro hs
      simp [setnextupdate, hl, hs, HandleSetUpdatePing]

/-- C7 witness: scenario B — a padded label is stored stripped, and a
whitespace-only label is rejected leaving the prior override in place. -/
theorem setnextupdate_strips_or_rejects_witness :
    setnextupdate [] "10.0.0.5" "  R1-100  " =
      (regSet [] "10.0.0.5" { forcedLabel := some (pyStrip "  R1-100  ") },
       Except.ok "ok") ∧
    pyStrip "  R1-100  " = "R1-100" ∧
    setnextupdate [("10.0.0.5", { forcedLabel := some "R1-100" })]
        "10.0.0.5" "   " =
      ([("10.0.0.5", { forcedLabel := some "R1-100" })],
       Except.error "No label provided.") :=
  ⟨(setnextupdate_strips_or_rejects [] "10.0.0.5" "  R1-100  ").2 (by decide),
   by decide,
   (setnextupdate_strips_or_rejects
      [("10.0.0.5", { forcedLabel := some "R1-100" })] "10.0.0.5" "   ").1
     (by decide)⟩

/-- C9: `symbolicate_dump` raises a `DevServerError` exactly when the external
`minidump_stackwalk` process exits with a nonzero code, and on zero exit it
returns the captured stdout text of the symbolizer. -/
theorem symbolicate_error_iff_nonzero_exit
    (stdout_text stderr_text : String) (returncode : Int) :
    ((∃ e, symbolicate_dump stdout_text stderr_text returncode =
        Except.error e) ↔ returncode ≠ 0) ∧
    (returncode = 0 →
      symbolicate_dump stdout_text stderr_text returncode =
        Except.ok stdout_text) := by
  by_cases h : returncode = 0 <;> simp [symbolicate_dump, h]

/-- C9 witness. -/
theorem symbolicate_error_iff_nonzero_exit_witness :
    symbolicate_dump "trace" "err" 0 = Except.ok "trace" :=
  (symbolicate_error_iff_nonzero_exit "trace" "err" 0).2 rfl

/-- C8: a blob-store fetch failure is captured in the task's terminal Failed
state and surfaced only via a later `wait_for_status` poll; it is never
raised across the `download` call that launched the staging work — the launch
returns `ok` with the new handle whatever the eventual transfer outcome, and
after the background work fails the poll reports the captured failure. -/
theorem fetch_failure_surfaced_only_on_poll (st : CoordState) (k msg : String)
    (staged : String → Bool)
    (hFresh : ∀ t ∈ st.tasks, t.tid < st.nextId) :
    (download st (some k) none).2 = Except.ok st.nextId ∧
    (wait_for_status
        (finishTask (download st (some k) none).1 st.nextId
          (FetchOutcome.failure msg))
        (some k) staged).2 =
      Except.ok (statusString (DlStatus.Failed msg)) := by
  have hstate : finishTask (download st (some k) none).1 st.nextId
      (FetchOutcome.failure msg) =
      { tasks := st.tasks.map (finishOne st.nextId (DlStatus.Failed msg)) ++
          [⟨st.nextId, DlStatus.Failed msg⟩],
        table := setEntry st.table k (some st.nextId),
        nextId := st.nextId + 1 } := by
    simp [download, finishTask, outcomeStatus, finishOne]
  have hnone : (st.tasks.map
      (finishOne st.nextId (DlStatus.Failed msg))).find?
      (fun t => t.tid == st.nextId) = none := by
    rw [List.find?_eq_none]
    intro x hx
    obtain ⟨t, ht, rfl⟩ := List.mem_map.mp hx
    have hlt := hFresh t ht
    simp only [finishOne_tid, beq_iff_eq]
    omega
  have htask : taskStateD
      (finishTask (download st (some k) none).1 st.nextId
        (FetchOutcome.failure msg)) st.nextId = DlStatus.Failed msg := by
    rw [hstate]
    simp [taskStateD, List.find?_append, hnone]
  have htable : dictGet
      (finishTask (download st (some k) none).1 st.nextId
        (FetchOutcome.failure msg)).table k = some st.nextId := by
    rw [hstate]
    exact dictGet_setEntry_self _ _ _
  refine ⟨by simp [download], ?_⟩
  simp [wait_for_status, htable, htask]

/-- C8 witness. -/
theorem fetch_failure_surfaced_only_on_poll_witness :
    (download ⟨[], [], 0⟩ (some "k") none).2 = Except.ok 0 ∧
    (wait_for_status
        (finishTask (download ⟨[], [], 0⟩ (some "k") none).1 0
          (FetchOutcome.failure "fetch failed"))
        (some "k") (fun _ => false)).2 =
      Except.ok (statusString (DlStatus.Failed "fetch failed")) :=
  fetch_failure_surfaced_only_on_poll ⟨[], [], 0⟩ "k" "fetch failed"
    (fun _ => false) (by decide)

/-- C10: consuming a tracked task does not delete its key from the task
table — a `wait_for_status` that observes a tracked task and a `download`
whose synchronous launch fails both leave the key present but mapped to
`None`; any state whose entry for the key is `None` is treated by
`wait_for_status` exactly like an absent key (falling through to the cache
check); and no operation ever removes a key, so consumed keys accumulate in
the table for the life of the process. -/
theorem consumed_keys_accumulate (st : CoordState) (k e : String) (tid : Nat)
    (staged : String → Bool)
    (hTracked : dictGet st.table k = some tid) :
    findEntry (wait_for_status st (some k) staged).1.table k = some none ∧
    findEntry (download st (some k) (some e)).1.table k = some none ∧
    (∀ st' : CoordState, findEntry st'.table k = some none →
      wait_for_status st' (some k) staged =
        (st', if staged k then Except.ok "Success"
         else Except.error "No download for the given archive_url found.")) ∧
    (∀ (st' : CoordState) (u le : Option String),
      hasKey st'.table k = true →
      hasKey (download st' u le).1.table k = true) ∧
    (∀ (st' : CoordState) (u : Option String),
      hasKey st'.table k = true →
      hasKey (wait_for_status st' u staged).1.table k = true) := by
  refine ⟨?_, ?_, ?_, ?_, ?_⟩
  · simp [wait_for_status, hTracked, findEntry_setEntry_self]
  · simp [download, findEntry_setEntry_self]
  · intro st' h
    have hdg : dictGet st'.table k = none := by simp [dictGet, h]
    simp only [wait_for_status, hdg]
    split <;> simp_all
  · intro st' u le h
    match u with
    | none => simpa [download] using h
    | some url =>
      match le with
      | none =>
        simp only [download]
        exact hasKey_setEntry_of_hasKey _ _ _ _ h
      | some err =>
        simp only [download]
        exact hasKey_setEntry_of_hasKey _ _ _ _
          (hasKey_setEntry_of_hasKey _ _ _ _ h)
  · intro st' u h
    cases u with
    | none => simpa [wait_for_status] using h
    | some url =>
      cases hdg : dictGet st'.table url with
      | some tid' =>
        simp only [wait_for_status, hdg]
        exact hasKey_setEntry_of_hasKey _ _ _ _ h
      | none =>
        simp only [wait_for_status, hdg]
        split <;> exact h

/-- C10 witness. -/
theorem consumed_keys_accumulate_witness :
    findEntry (wait_for_status ⟨[⟨0, DlStatus.Succeeded⟩], [("k", some 0)], 1⟩
        (some "k") (fun _ => true)).1.table "k" = some none ∧
    findEntry (download ⟨[⟨0, DlStatus.Succeeded⟩], [("k", some 0)], 1⟩
        (some "k") (some "boom")).1.table "k" = some none :=
  ⟨(consumed_keys_accumulate ⟨[⟨0, DlStatus.Succeeded⟩], [("k", some 0)], 1⟩
      "k" "boom" 0 (fun _ => true) (by decide)).1,
   (consumed_keys_accumulate ⟨[⟨0, DlStatus.Succeeded⟩], [("k", some 0)], 1⟩
      "k" "boom" 0 (fun _ => true) (by decide)).2.1⟩
